import Mathlib

/-!
Verification development for the `snapshots-extract` repository.

The repository holds two Python command-line scripts:

* `extract_snapshots.py` — enumerates EBS snapshots and RDS instance/cluster
  snapshots across one or many AWS regions, keeps those created at or before a
  cutoff instant, and writes a sorted tab-separated report.
* `list_ebs_snapshots.py` — lists all EBS snapshots of one region and prints /
  writes the same tab-separated report (no age filter).

This file gives a shallow embedding of the data-processing core of both
scripts: the per-item record construction, the name-resolution chains, the
timestamp formatting, the region resolver, the per-region aggregation with
failure isolation, and the sort/serialize reporter.  Remote calls are modelled
by their response data (pages of items), and raised `BotoCoreError` /
`ClientError` exceptions by explicit error values.
-/

namespace SnapshotsExtract

/-! ### Generic lexicographic comparison of lists

Python compares strings and tuples lexicographically.  `lexLe lt` is the
lexicographic non-strict comparison of lists induced by a strict comparison
`lt` of elements. -/

def lexLe {α : Type} [DecidableEq α] (lt : α → α → Bool) : List α → List α → Bool
  | [], _ => true
  | _ :: _, [] => false
  | a :: as, b :: bs => if a = b then lexLe lt as bs else lt a b

/-- Python's `<` on characters: comparison of code points. -/
def charLt (a b : Char) : Bool := decide (a.toNat < b.toNat)

/-- Strict comparison of natural numbers as a `Bool`. -/
def natLt (a b : Nat) : Bool := decide (a < b)

/-- Python's `<=` on strings: lexicographic comparison by code point. -/
def strLe (s t : String) : Bool := lexLe charLt s.data t.data

/-! ### Model of aware Python datetimes

`boto3` hands the scripts timezone-aware `datetime` values.  An aware
`datetime` denotes an instant; we model the instant by its UTC calendar
coordinates (year, month, day, hour, minute, second, microsecond).  Python
compares aware datetimes chronologically, which on UTC coordinates of valid
dates is exactly the lexicographic order of the coordinate tuple (`dtLe`).
`dt.astimezone(timezone.utc)` exposes precisely these UTC coordinates to
`strftime`, so the embedding of
`t.astimezone(timezone.utc).strftime("%Y-%m-%dT%H:%M:%SZ")` is `pyStrftimeZ`
below, reading the stored UTC fields. -/

structure PyDateTime where
  year : Nat
  month : Nat
  day : Nat
  hour : Nat
  minute : Nat
  second : Nat
  microsecond : Nat
deriving DecidableEq

/-- Field ranges enforced by Python's `datetime` constructor (we do not model
month lengths more finely than `1..31`). -/
def PyDateTime.Valid (t : PyDateTime) : Prop :=
  1 ≤ t.year ∧ t.year ≤ 9999 ∧ 1 ≤ t.month ∧ t.month ≤ 12 ∧ 1 ≤ t.day ∧
    t.day ≤ 31 ∧ t.hour ≤ 23 ∧ t.minute ≤ 59 ∧ t.second ≤ 59 ∧
    t.microsecond ≤ 999999

instance (t : PyDateTime) : Decidable t.Valid := by
  unfold PyDateTime.Valid; infer_instance

def dtFields (t : PyDateTime) : List Nat :=
  [t.year, t.month, t.day, t.hour, t.minute, t.second, t.microsecond]

/-- Python's `<=` on aware datetimes (chronological order of the instants). -/
def dtLe (a b : PyDateTime) : Bool := lexLe natLt (dtFields a) (dtFields b)

/-- The decimal digit characters produced by `strftime`. -/
def digitCh : Nat → Char
  | 0 => '0' | 1 => '1' | 2 => '2' | 3 => '3' | 4 => '4'
  | 5 => '5' | 6 => '6' | 7 => '7' | 8 => '8' | _ => '9'

/-- Zero-padded fixed-width decimal rendering, most significant digit first
(`padDigits 4` for `%Y`, `padDigits 2` for `%m`, `%d`, `%H`, `%M`, `%S`). -/
def padDigits : Nat → Nat → List Char
  | 0, _ => []
  | w + 1, m => digitCh (m / 10 ^ w) :: padDigits w (m % 10 ^ w)

/-- Character list of `strftime("%Y-%m-%dT%H:%M:%SZ")` on UTC coordinates.
`%S` prints whole seconds, so the microsecond field does not appear. -/
def fmtChars (t : PyDateTime) : List Char :=
  padDigits 4 t.year ++ '-' :: padDigits 2 t.month ++ '-' :: padDigits 2 t.day
    ++ 'T' :: padDigits 2 t.hour ++ ':' :: padDigits 2 t.minute
    ++ ':' :: padDigits 2 t.second ++ ['Z']

/-- `t.astimezone(timezone.utc).strftime("%Y-%m-%dT%H:%M:%SZ")`. -/
def pyStrftimeZ (t : PyDateTime) : String := String.mk (fmtChars t)

/-- Decidable check that a string has exactly the shape
`YYYY-MM-DDTHH:MM:SSZ`: twenty characters, digits in the numeric positions,
the literal separators `-`, `-`, `T`, `:`, `:` and a final literal `Z`. -/
def timestampShape (s : String) : Bool :=
  match s.data with
  | [y1, y2, y3, y4, a1, m1, m2, a2, d1, d2, a3, h1, h2, a4, n1, n2, a5, c1, c2, z] =>
    y1.isDigit && y2.isDigit && y3.isDigit && y4.isDigit && (a1 == '-') &&
      m1.isDigit && m2.isDigit && (a2 == '-') && d1.isDigit && d2.isDigit &&
      (a3 == 'T') && h1.isDigit && h2.isDigit && (a4 == ':') && n1.isDigit &&
      n2.isDigit && (a5 == ':') && c1.isDigit && c2.isDigit && (z == 'Z')
  | _ => false

/-! ### Records, the reporter's sort, and serialization -/

/-- The sole entity produced by the pipeline: the dictionaries
`{"name": ..., "created": ...}` of `extract_snapshots.py` and the
`(name, created)` tuples of `list_ebs_snapshots.py`. -/
structure SnapshotRecord where
  name : String
  created : String
deriving DecidableEq

/-- Python's ascending order on the sort key `(r["created"], r["name"])`
(tuple comparison: first components, ties by second). -/
def recLe (a b : SnapshotRecord) : Bool :=
  if a.created = b.created then strLe a.name b.name else strLe a.created b.created

/-- `rows.sort(key=lambda r: (r["created"], r["name"]))`.  Python's sort is a
stable sort by this key; since records carry no fields beyond the key, any
permutation-preserving sort ordered by `recLe` computes the same list, so
insertion sort is a faithful model. -/
def sortRows (rows : List SnapshotRecord) : List SnapshotRecord :=
  List.insertionSort (fun a b => recLe a b = true) rows

/-- The line written for one record: `f"{r['name']}\t{r['created']}\n"`. -/
def recordLine (r : SnapshotRecord) : String := r.name ++ "\t" ++ r.created ++ "\n"

/-- Contents of the output file: the concatenation of the per-record lines, in
order; no header line, no trailing summary (the count summary goes to the
console, not the file). -/
def writeOutput (rows : List SnapshotRecord) : String :=
  String.join (rows.map recordLine)

/-- Split a character sequence at newline characters (the physical lines of
the file, plus a final chunk after the last newline). -/
def splitLines : List Char → List (List Char)
  | [] => [[]]
  | c :: rest =>
    if c = '\n' then [] :: splitLines rest
    else
      match splitLines rest with
      | [] => [[c]]
      | l :: ls => (c :: l) :: ls

/-- Split a character sequence at its last tab: `(before, after)`.  When no
tab occurs the whole input is returned as `before`. -/
def splitAtLastTab : List Char → List Char × List Char
  | [] => ([], [])
  | c :: rest =>
    if '\t' ∈ rest then
      ((splitAtLastTab rest).1.cons c, (splitAtLastTab rest).2)
    else if c = '\t' then ([], rest)
    else (c :: rest, [])

/-! ### Provider response items and the source enumerators -/

/-- One element of a snapshot's `Tags` list: `t.get("Key")`, `t.get("Value")`
(either key may be missing). -/
structure Tag where
  key : Option String
  value : Option String
deriving DecidableEq

/-- One element of a `describe_snapshots` page.  `startTime` is
`snap.get("StartTime")` when that value is a `datetime`; a missing field or a
value of any other type is modelled as `none` (both make the scripts'
`isinstance(start_time, datetime)` guard fail). -/
structure EbsItem where
  startTime : Option PyDateTime
  tags : Option (List Tag)
  description : Option String
  snapshotId : Option String
deriving DecidableEq

/-- One element of a `describe_db_snapshots` / `describe_db_cluster_snapshots`
page: the creation time and the identifier field the script reads. -/
structure RdsItem where
  snapshotCreateTime : Option PyDateTime
  identifier : Option String
deriving DecidableEq

/-- Python truthiness of an optional string: `None` and `""` are falsy. -/
def truthy : Option String → Bool
  | none => false
  | some s => !(s == "")

/-- `next((t.get("Value") for t in tags if t.get("Key") == "Name"), None)`:
the `Value` field of the first tag whose `Key` equals `"Name"` (possibly
itself missing), else `None`. -/
def findNameTag : List Tag → Option String
  | [] => none
  | t :: ts => if t.key = some "Name" then t.value else findNameTag ts

/-- `name_tag or description or snapshot_id or "<unnamed>"` — Python's
short-circuit `or` over possibly-missing strings (falsy values skipped),
followed by `str(...)` which is the identity here. -/
def ebsDisplayName (nameTag description snapshotId : Option String) : String :=
  if truthy nameTag then nameTag.getD ""
  else if truthy description then description.getD ""
  else if truthy snapshotId then snapshotId.getD ""
  else "<unnamed>"

/-- `snap.get("DBSnapshotIdentifier") or "<unnamed>"` (and the identical
cluster variant): identifier-only fallback. -/
def rdsName (identifier : Option String) : String :=
  if truthy identifier then identifier.getD "" else "<unnamed>"

/-- Body of the inner loop of `get_ebs_snapshots`: `None` when the item is
skipped (missing/non-datetime `StartTime`, or newer than the cutoff), else the
yielded record. -/
def ebsItemRecord (cutoff : PyDateTime) (snap : EbsItem) : Option SnapshotRecord :=
  match snap.startTime with
  | none => none
  | some st =>
    if dtLe st cutoff then
      some { name := ebsDisplayName (findNameTag (snap.tags.getD []))
                       snap.description snap.snapshotId,
             created := pyStrftimeZ st }
    else none

/-- `get_ebs_snapshots`: iterate the pages of `describe_snapshots`, yielding a
record per surviving item. -/
def getEbsSnapshots (cutoff : PyDateTime) (pages : List (List EbsItem)) :
    List SnapshotRecord :=
  (pages.map (fun page => page.filterMap (ebsItemRecord cutoff))).flatten

/-- Body of the inner loops of `get_rds_instance_snapshots` and
`get_rds_cluster_snapshots` (identical apart from the field names). -/
def rdsItemRecord (cutoff : PyDateTime) (snap : RdsItem) : Option SnapshotRecord :=
  match snap.snapshotCreateTime with
  | none => none
  | some created =>
    if dtLe created cutoff then
      some { name := rdsName snap.identifier, created := pyStrftimeZ created }
    else none

/-- `get_rds_instance_snapshots`. -/
def getRdsInstanceSnapshots (cutoff : PyDateTime) (pages : List (List RdsItem)) :
    List SnapshotRecord :=
  (pages.map (fun page => page.filterMap (rdsItemRecord cutoff))).flatten

/-- `get_rds_cluster_snapshots`. -/
def getRdsClusterSnapshots (cutoff : PyDateTime) (pages : List (List RdsItem)) :
    List SnapshotRecord :=
  (pages.map (fun page => page.filterMap (rdsItemRecord cutoff))).flatten

/-- Body of the page loop of `list_ebs_snapshots.py` (`main`, lines 64–75):
note there is no cutoff comparison — every item with a datetime `StartTime`
produces a row. -/
def listEbsItemRecord (snap : EbsItem) : Option SnapshotRecord :=
  match snap.startTime with
  | none => none
  | some st =>
    some { name := ebsDisplayName (findNameTag (snap.tags.getD []))
                     snap.description snap.snapshotId,
           created := pyStrftimeZ st }

/-- The row collection of `list_ebs_snapshots.py` over all pages. -/
def listEbsRows (pages : List (List EbsItem)) : List SnapshotRecord :=
  (pages.map (fun page => page.filterMap listEbsItemRecord)).flatten

/-! ### Region resolver -/

/-- One element of the `describe_regions` response. -/
structure RegionEntry where
  regionName : Option String
  optInStatus : Option String
deriving DecidableEq

/-- `status in (None, "opt-in-not-required", "opted-in")`. -/
def optInOk (status : Option String) : Bool :=
  status == none || status == some "opt-in-not-required" || status == some "opted-in"

/-- The loop body of `list_opted_in_regions`: keep entries with a truthy
`RegionName` and an acceptable `OptInStatus`. -/
def regionFilter (rs : List RegionEntry) : List String :=
  rs.filterMap fun r =>
    match r.regionName with
    | none => none
    | some name =>
      if !(name == "") && optInOk r.optInStatus then some name else none

/-- `sorted(set(regions))`: deduplicate and sort ascending. -/
def sortedSet (l : List String) : List String :=
  List.insertionSort (fun a b => strLe a b = true) l.dedup

/-- `list_opted_in_regions`: the `describe_regions` call either raises (the
`except` branch re-raises a `RuntimeError`, fatal in `main`) or returns the
filtered, deduplicated, sorted region names. -/
def listOptedInRegions (resp : Except String (List RegionEntry)) :
    Except String (List String) :=
  match resp with
  | .error e => .error ("Failed to list regions: " ++ e)
  | .ok rs => .ok (sortedSet (regionFilter rs))

def noRegionMsg : String :=
  "No region specified and no default region configured in the profile. Use --region or --all-regions."

/-- Region resolution in `main` of `extract_snapshots.py` (lines 172–182):
`--all-regions` is tested first; otherwise `args.region or session.region_name`
with Python truthiness, and a falsy result is a fatal error. -/
def resolveRegions (allRegions : Bool) (argRegion defaultRegion : Option String)
    (resp : Except String (List RegionEntry)) : Except String (List String) :=
  if allRegions then
    listOptedInRegions resp
  else
    let region := if truthy argRegion then argRegion else defaultRegion
    if truthy region then .ok [region.getD ""] else .error noRegionMsg

/-! ### Aggregator and the whole run of `extract_snapshots.py` -/

/-- The outcome of one enumerator call for one region: the records the
generator yielded before finishing or failing, and the
`BotoCoreError`/`ClientError` it raised, if any.  (`rows.extend(generator)`
keeps the records appended before an exception.) -/
structure CallResult where
  recs : List SnapshotRecord
  err : Option String
deriving DecidableEq

/-- The three per-region enumerator calls, abstracted over the remote
responses. -/
structure Fetchers where
  ebs : String → CallResult
  rdsInstance : String → CallResult
  rdsCluster : String → CallResult

def warnLine (kind region err : String) : String :=
  "Warning: Failed to list " ++ kind ++ " in " ++ region ++ ": " ++ err

def warnOf (kind region : String) : Option String → List String
  | none => []
  | some e => [warnLine kind region e]

/-- `args.service in ("ebs", "both")` and `args.service in ("rds", "both")`. -/
inductive Service | ebs | rds | both
deriving DecidableEq

def includeEbs : Service → Bool
  | .ebs => true | .both => true | .rds => false

def includeRds : Service → Bool
  | .rds => true | .both => true | .ebs => false

/-- The loop body of the aggregation loop for one region: each of the (up to
three) enumerator calls is wrapped in its own `try/except`, appending its
records and converting a raised error into a printed warning. -/
def regionStep (f : Fetchers) (iE iR : Bool) (region : String)
    (acc : List SnapshotRecord × List String) :
    List SnapshotRecord × List String :=
  let acc1 :=
    if iE then
      let r := f.ebs region
      (acc.1 ++ r.recs, acc.2 ++ warnOf "EBS snapshots" region r.err)
    else acc
  if iR then
    let r1 := f.rdsInstance region
    let acc2 := (acc1.1 ++ r1.recs,
                 acc1.2 ++ warnOf "RDS DB snapshots" region r1.err)
    let r2 := f.rdsCluster region
    (acc2.1 ++ r2.recs, acc2.2 ++ warnOf "RDS cluster snapshots" region r2.err)
  else acc1

/-- The aggregation loop of `main` (lines 189–204): fold over the resolved
regions, collecting rows and warnings. -/
def aggregateRows (f : Fetchers) (iE iR : Bool) (regions : List String) :
    List SnapshotRecord × List String :=
  regions.foldl (fun acc region => regionStep f iE iR region acc) ([], [])

/-- The records one region contributes (EBS first, then RDS instance, then
RDS cluster), kept even when the call also raised. -/
def regionRecs (f : Fetchers) (iE iR : Bool) (region : String) :
    List SnapshotRecord :=
  (if iE then (f.ebs region).recs else []) ++
    (if iR then (f.rdsInstance region).recs ++ (f.rdsCluster region).recs else [])

/-- The warnings one region contributes: one per failing call, naming the
kind and the region. -/
def regionWarns (f : Fetchers) (iE iR : Bool) (region : String) : List String :=
  (if iE then warnOf "EBS snapshots" region (f.ebs region).err else []) ++
    (if iR then
      warnOf "RDS DB snapshots" region (f.rdsInstance region).err ++
        warnOf "RDS cluster snapshots" region (f.rdsCluster region).err
    else [])

/-- The whole run of `extract_snapshots.py` after session creation: resolve
regions, aggregate with per-call failure isolation, sort, serialize.  The
result is `.ok (file contents, warnings)` on a successful exit and `.error`
on a fatal `SystemExit`.  (The physical file write is external I/O, out of
scope; its failure path is the one fatal step not modelled.) -/
def extractMain (allRegions : Bool) (argRegion defaultRegion : Option String)
    (resp : Except String (List RegionEntry)) (service : Service)
    (f : Fetchers) : Except String (String × List String) :=
  match resolveRegions allRegions argRegion defaultRegion resp with
  | .error e => .error e
  | .ok regions =>
    let p := aggregateRows f (includeEbs service) (includeRds service) regions
    .ok (writeOutput (sortRows p.1), p.2)

/-! ### Lemmas: generic lexicographic order -/

theorem lexLe_refl {α : Type} [DecidableEq α] (lt : α → α → Bool) :
    ∀ l : List α, lexLe lt l l = true
  | [] => rfl
  | a :: as => by simp [lexLe, lexLe_refl lt as]

theorem lexLe_total {α : Type} [DecidableEq α] {lt : α → α → Bool}
    (hconn : ∀ a b, a ≠ b → lt a b = true ∨ lt b a = true) :
    ∀ as bs : List α, lexLe lt as bs = true ∨ lexLe lt bs as = true
  | [], _ => Or.inl rfl
  | _ :: _, [] => Or.inr rfl
  | a :: as, b :: bs => by
    by_cases hab : a = b
    · subst hab
      simpa [lexLe] using lexLe_total hconn as bs
    · simpa [lexLe, hab, Ne.symm hab] using hconn a b hab

theorem lexLe_antisymm {α : Type} [DecidableEq α] {lt : α → α → Bool}
    (hasymm : ∀ a b, lt a b = true → lt b a = true → False) :
    ∀ as bs : List α, lexLe lt as bs = true → lexLe lt bs as = true → as = bs
  | [], [], _, _ => rfl
  | [], _ :: _, _, h2 => by simp [lexLe] at h2
  | _ :: _, [], h1, _ => by simp [lexLe] at h1
  | a :: as, b :: bs, h1, h2 => by
    by_cases hab : a = b
    · subst hab
      simp only [lexLe, if_pos rfl] at h1 h2
      exact congrArg (a :: ·) (lexLe_antisymm hasymm as bs h1 h2)
    · simp only [lexLe, if_neg hab, if_neg (Ne.symm hab)] at h1 h2
      exact (hasymm a b h1 h2).elim

theorem lexLe_trans {α : Type} [DecidableEq α] {lt : α → α → Bool}
    (htr : ∀ a b c, lt a b = true → lt b c = true → lt a c = true)
    (hasymm : ∀ a b, lt a b = true → lt b a = true → False) :
    ∀ as bs cs : List α,
      lexLe lt as bs = true → lexLe lt bs cs = true → lexLe lt as cs = true
  | [], _, _, _, _ => rfl
  | _ :: _, [], _, h1, _ => by simp [lexLe] at h1
  | _ :: _, _ :: _, [], _, h2 => by simp [lexLe] at h2
  | a :: as, b :: bs, c :: cs, h1, h2 => by
    by_cases hab : a = b <;> by_cases hbc : b = c
    · subst hab; subst hbc
      simp only [lexLe, if_pos rfl] at h1 h2 ⊢
      exact lexLe_trans htr hasymm as bs cs h1 h2
    · subst hab
      simp only [lexLe, if_pos rfl, if_neg hbc] at h1 h2 ⊢
      exact h2
    · subst hbc
      simp only [lexLe, if_neg hab] at h1 ⊢
      exact h1
    · simp only [lexLe, if_neg hab, if_neg hbc] at h1 h2
      have hac : a ≠ c := by
        rintro rfl
        exact hasymm a b h1 h2
      simp only [lexLe, if_neg hac]
      exact htr a b c h1 h2

theorem lexLe_append {α : Type} [DecidableEq α] (lt : α → α → Bool) :
    ∀ as bs cs ds : List α, as.length = bs.length →
      lexLe lt (as ++ cs) (bs ++ ds) =
        if as = bs then lexLe lt cs ds else lexLe lt as bs
  | [], [], _, _, _ => by simp
  | [], _ :: _, _, _, h => by simp at h
  | _ :: _, [], _, _, h => by simp at h
  | a :: as, b :: bs, cs, ds, h => by
    simp only [List.length_cons, Nat.add_right_cancel_iff] at h
    by_cases hab : a = b
    · subst hab
      by_cases habs : as = bs
      · subst habs
        simp [lexLe, lexLe_append lt as as cs ds rfl]
      · have hne : a :: as ≠ a :: bs := by simp [habs]
        simp [lexLe, habs, hne, lexLe_append lt as bs cs ds h]
    · have hne : a :: as ≠ b :: bs := by simp [hab]
      simp [lexLe, hab, hne]

/-! ### Lemmas: the character and natural-number base orders -/

theorem charLt_asymm (a b : Char) (h1 : charLt a b = true) (h2 : charLt b a = true) :
    False := by
  simp only [charLt, decide_eq_true_eq] at h1 h2
  omega

theorem charLt_trans (a b c : Char) (h1 : charLt a b = true) (h2 : charLt b c = true) :
    charLt a c = true := by
  simp only [charLt, decide_eq_true_eq] at h1 h2 ⊢
  omega

theorem charLt_conn (a b : Char) (h : a ≠ b) :
    charLt a b = true ∨ charLt b a = true := by
  have hv : a.toNat ≠ b.toNat := fun hn => h (Char.ext (UInt32.ext hn))
  simp only [charLt, decide_eq_true_eq]
  omega

theorem natLt_asymm (a b : Nat) (h1 : natLt a b = true) (h2 : natLt b a = true) :
    False := by
  simp only [natLt, decide_eq_true_eq] at h1 h2
  omega

theorem natLt_trans (a b c : Nat) (h1 : natLt a b = true) (h2 : natLt b c = true) :
    natLt a c = true := by
  simp only [natLt, decide_eq_true_eq] at h1 h2 ⊢
  omega

theorem natLt_conn (a b : Nat) (h : a ≠ b) : natLt a b = true ∨ natLt b a = true := by
  simp only [natLt, decide_eq_true_eq]
  omega

/-! ### Lemmas: the string order used by the sorts -/

theorem strLe_refl (s : String) : strLe s s = true := lexLe_refl charLt s.data

theorem strLe_total (s t : String) : strLe s t = true ∨ strLe t s = true :=
  lexLe_total charLt_conn s.data t.data

theorem strLe_trans {s t u : String} (h1 : strLe s t = true) (h2 : strLe t u = true) :
    strLe s u = true :=
  lexLe_trans charLt_trans charLt_asymm s.data t.data u.data h1 h2

theorem strLe_antisymm {s t : String} (h1 : strLe s t = true) (h2 : strLe t s = true) :
    s = t := by
  have hd := lexLe_antisymm charLt_asymm s.data t.data h1 h2
  cases s; cases t
  exact congrArg String.mk hd

/-! ### Lemmas: digits and zero-padded rendering -/

theorem digitCh_lt : ∀ a < 10, ∀ b < 10,
    (charLt (digitCh a) (digitCh b) = true ↔ a < b) := by decide

theorem digitCh_inj : ∀ a < 10, ∀ b < 10, (digitCh a = digitCh b ↔ a = b) := by decide

theorem digitCh_isDigit : ∀ d < 10, (digitCh d).isDigit = true := by decide

theorem padDigits_length : ∀ w m, (padDigits w m).length = w
  | 0, _ => rfl
  | w + 1, m => by simp [padDigits, padDigits_length w]

theorem padLe_iff : ∀ w m n, m < 10 ^ w → n < 10 ^ w →
    (lexLe charLt (padDigits w m) (padDigits w n) = true ↔ m ≤ n)
  | 0, m, n, hm, hn => by
    simp only [pow_zero, Nat.lt_one_iff] at hm hn
    subst hm; subst hn
    simp [padDigits, lexLe]
  | w + 1, m, n, hm, hn => by
    have hpow : 0 < 10 ^ w := Nat.pos_pow_of_pos w (by omega)
    have hpw : 10 ^ (w + 1) = 10 ^ w * 10 := by ring
    have hd1 : m / 10 ^ w < 10 := by rw [Nat.div_lt_iff_lt_mul hpow]; omega
    have hd2 : n / 10 ^ w < 10 := by rw [Nat.div_lt_iff_lt_mul hpow]; omega
    have hm' : m % 10 ^ w < 10 ^ w := Nat.mod_lt _ hpow
    have hn' : n % 10 ^ w < 10 ^ w := Nat.mod_lt _ hpow
    by_cases hd : m / 10 ^ w = n / 10 ^ w
    · have hch : digitCh (m / 10 ^ w) = digitCh (n / 10 ^ w) := by rw [hd]
      simp only [padDigits, lexLe, if_pos hch]
      rw [padLe_iff w _ _ hm' hn']
      constructor
      · intro h
        calc m = 10 ^ w * (m / 10 ^ w) + m % 10 ^ w := (Nat.div_add_mod m _).symm
          _ ≤ 10 ^ w * (n / 10 ^ w) + n % 10 ^ w := by
              rw [hd]; exact Nat.add_le_add_left h _
          _ = n := Nat.div_add_mod n _
      · intro h
        have hle : 10 ^ w * (m / 10 ^ w) + m % 10 ^ w ≤
            10 ^ w * (n / 10 ^ w) + n % 10 ^ w := by
          rw [Nat.div_add_mod, Nat.div_add_mod]; exact h
        rw [hd] at hle
        exact Nat.le_of_add_le_add_left hle
    · have hch : digitCh (m / 10 ^ w) ≠ digitCh (n / 10 ^ w) := by
        intro hc
        exact hd ((digitCh_inj _ hd1 _ hd2).mp hc)
      simp only [padDigits, lexLe, if_neg hch]
      rw [digitCh_lt _ hd1 _ hd2]
      constructor
      · intro h
        refine le_of_lt ?_
        calc m < 10 ^ w * (m / 10 ^ w) + 10 ^ w := by
              have := Nat.div_add_mod m (10 ^ w); omega
          _ = 10 ^ w * (m / 10 ^ w + 1) := by ring
          _ ≤ 10 ^ w * (n / 10 ^ w) := Nat.mul_le_mul_left _ h
          _ ≤ n := by have := Nat.div_add_mod n (10 ^ w); omega
      · intro h
        exact lt_of_le_of_ne (Nat.div_le_div_right h) hd

theorem padDigits_inj {w m n : Nat} (hm : m < 10 ^ w) (hn : n < 10 ^ w) :
    padDigits w m = padDigits w n ↔ m = n := by
  constructor
  · intro h
    have h1 : lexLe charLt (padDigits w m) (padDigits w n) = true := by
      rw [h]; exact lexLe_refl _ _
    have h2 : lexLe charLt (padDigits w n) (padDigits w m) = true := by
      rw [h]; exact lexLe_refl _ _
    have := (padLe_iff w m n hm hn).mp h1
    have := (padLe_iff w n m hn hm).mp h2
    omega
  · intro h; rw [h]

/-! ### Lemmas: the timestamp format mirrors the chronological order -/

theorem fmtStep (w v1 v2 : Nat) (hb1 : v1 < 10 ^ w) (hb2 : v2 < 10 ^ w)
    (sep : Char) (cs ds : List Char) (ns ms : List Nat)
    (ih : lexLe charLt cs ds = true ↔ lexLe natLt ns ms = true) :
    (lexLe charLt (padDigits w v1 ++ sep :: cs) (padDigits w v2 ++ sep :: ds) = true ↔
      lexLe natLt (v1 :: ns) (v2 :: ms) = true) := by
  rw [lexLe_append charLt _ _ _ _ (by rw [padDigits_length, padDigits_length])]
  by_cases hv : v1 = v2
  · subst hv
    simp [lexLe, ih]
  · have hpad : padDigits w v1 ≠ padDigits w v2 := by
      intro hc; exact hv ((padDigits_inj hb1 hb2).mp hc)
    rw [if_neg hpad]
    simp only [lexLe, if_neg hv, padLe_iff w _ _ hb1 hb2, natLt, decide_eq_true_eq]
    omega

/-- The first six datetime fields, the ones `strftime("%Y-%m-%dT%H:%M:%SZ")`
prints. -/
def dtProj (t : PyDateTime) : List Nat :=
  [t.year, t.month, t.day, t.hour, t.minute, t.second]

theorem fmt_le_iff (t1 t2 : PyDateTime) (h1 : t1.Valid) (h2 : t2.Valid) :
    (lexLe charLt (fmtChars t1) (fmtChars t2) = true ↔
      lexLe natLt (dtProj t1) (dtProj t2) = true) := by
  obtain ⟨ha1, ha2, hb1, hb2, hc1, hc2, hd1, he1, hf1, hg1⟩ := h1
  obtain ⟨ha1', ha2', hb1', hb2', hc1', hc2', hd1', he1', hf1', hg1'⟩ := h2
  unfold fmtChars dtProj
  exact
    fmtStep 4 _ _ (by omega) (by omega) '-' _ _ _ _
      (fmtStep 2 _ _ (by omega) (by omega) '-' _ _ _ _
        (fmtStep 2 _ _ (by omega) (by omega) 'T' _ _ _ _
          (fmtStep 2 _ _ (by omega) (by omega) ':' _ _ _ _
            (fmtStep 2 _ _ (by omega) (by omega) ':' _ _ _ _
              (fmtStep 2 _ _ (by omega) (by omega) 'Z' [] [] [] [] Iff.rfl)))))

theorem dtFields_eq_proj (t : PyDateTime) : dtFields t = dtProj t ++ [t.microsecond] := rfl

theorem dtLe_eq (t1 t2 : PyDateTime) :
    dtLe t1 t2 =
      if dtProj t1 = dtProj t2 then decide (t1.microsecond ≤ t2.microsecond)
      else lexLe natLt (dtProj t1) (dtProj t2) := by
  rw [dtLe, dtFields_eq_proj, dtFields_eq_proj,
    lexLe_append natLt (dtProj t1) (dtProj t2) [t1.microsecond] [t2.microsecond] rfl]
  by_cases hp : dtProj t1 = dtProj t2
  · simp only [if_pos hp]
    by_cases hmu : t1.microsecond = t2.microsecond
    · simp [lexLe, hmu]
    · simp only [lexLe, if_neg hmu, natLt]
      rcases Nat.lt_or_ge t1.microsecond t2.microsecond with h' | h'
      · simp [h', Nat.le_of_lt h']
      · have hlt : ¬ t1.microsecond < t2.microsecond := by omega
        have hle : ¬ t1.microsecond ≤ t2.microsecond := by omega
        simp [hlt, hle]
  · simp only [if_neg hp]

theorem digitCh_isDigit_all : ∀ d : Nat, (digitCh d).isDigit = true
  | 0 | 1 | 2 | 3 | 4 | 5 | 6 | 7 | 8 => rfl
  | _ + 9 => rfl

theorem fmtChars_explicit (t : PyDateTime) :
    fmtChars t =
      [digitCh (t.year / 1000), digitCh (t.year % 1000 / 100),
        digitCh (t.year % 1000 % 100 / 10), digitCh (t.year % 1000 % 100 % 10 / 1), '-',
        digitCh (t.month / 10), digitCh (t.month % 10 / 1), '-',
        digitCh (t.day / 10), digitCh (t.day % 10 / 1), 'T',
        digitCh (t.hour / 10), digitCh (t.hour % 10 / 1), ':',
        digitCh (t.minute / 10), digitCh (t.minute % 10 / 1), ':',
        digitCh (t.second / 10), digitCh (t.second % 10 / 1), 'Z'] := rfl

theorem timestampShape_pyStrftimeZ (t : PyDateTime) :
    timestampShape (pyStrftimeZ t) = true := by
  rw [pyStrftimeZ, fmtChars_explicit]
  simp [timestampShape, digitCh_isDigit_all]

/-! ### Lemmas: the reporter's composite order is a total order -/

theorem recLe_total (a b : SnapshotRecord) : recLe a b = true ∨ recLe b a = true := by
  unfold recLe
  by_cases h : a.created = b.created
  · simp only [if_pos h, if_pos h.symm]
    exact strLe_total a.name b.name
  · simp only [if_neg h, if_neg (Ne.symm h)]
    exact strLe_total a.created b.created

theorem recLe_trans {a b c : SnapshotRecord} (h1 : recLe a b = true)
    (h2 : recLe b c = true) : recLe a c = true := by
  unfold recLe at h1 h2 ⊢
  by_cases hab : a.created = b.created <;> by_cases hbc : b.created = c.created
  · rw [if_pos hab] at h1
    rw [if_pos hbc] at h2
    rw [if_pos (hab.trans hbc)]
    exact strLe_trans h1 h2
  · rw [if_pos hab] at h1
    rw [if_neg hbc] at h2
    rw [if_neg (hab ▸ hbc), hab]
    exact h2
  · rw [if_neg hab] at h1
    rw [if_pos hbc] at h2
    rw [if_neg (hbc ▸ hab), ← hbc]
    exact h1
  · rw [if_neg hab] at h1
    rw [if_neg hbc] at h2
    have hac : a.created ≠ c.created := by
      intro h
      exact hab (strLe_antisymm h1 (h ▸ h2))
    rw [if_neg hac]
    exact strLe_trans h1 h2

theorem recLe_antisymm {a b : SnapshotRecord} (h1 : recLe a b = true)
    (h2 : recLe b a = true) : a = b := by
  unfold recLe at h1 h2
  by_cases h : a.created = b.created
  · rw [if_pos h] at h1
    rw [if_pos h.symm] at h2
    have hn := strLe_antisymm h1 h2
    cases a; cases b
    simp_all
  · rw [if_neg h] at h1
    rw [if_neg (Ne.symm h)] at h2
    exact absurd (strLe_antisymm h1 h2) h

instance : IsTotal SnapshotRecord (fun a b => recLe a b = true) := ⟨recLe_total⟩

instance : IsTrans SnapshotRecord (fun a b => recLe a b = true) :=
  ⟨fun _ _ _ => recLe_trans⟩

instance : IsAntisymm SnapshotRecord (fun a b => recLe a b = true) :=
  ⟨fun _ _ => recLe_antisymm⟩

instance : IsTotal String (fun a b => strLe a b = true) := ⟨strLe_total⟩

instance : IsTrans String (fun a b => strLe a b = true) :=
  ⟨fun _ _ _ => strLe_trans⟩

instance : IsAntisymm String (fun a b => strLe a b = true) :=
  ⟨fun _ _ => strLe_antisymm⟩

theorem sortRows_sorted (rows : List SnapshotRecord) :
    (sortRows rows).Sorted (fun a b => recLe a b = true) :=
  List.sorted_insertionSort _ rows

theorem sortRows_perm (rows : List SnapshotRecord) : (sortRows rows).Perm rows :=
  List.perm_insertionSort _ rows

/-- Two sorted lists over the composite key that are permutations of one
another are equal: the sort key `(created, name)` determines the whole
record, so the order is antisymmetric. -/
theorem sortRows_eq_of_perm {l1 l2 : List SnapshotRecord} (h : l1.Perm l2) :
    sortRows l1 = sortRows l2 :=
  List.eq_of_perm_of_sorted
    (((sortRows_perm l1).trans h).trans (sortRows_perm l2).symm)
    (sortRows_sorted l1) (sortRows_sorted l2)

/-! ### Lemmas: serialization and physical lines -/

theorem recordLine_data (r : SnapshotRecord) :
    (recordLine r).data = (r.name.data ++ '\t' :: r.created.data) ++ ['\n'] := by
  simp [recordLine]

theorem writeOutput_nil : writeOutput [] = "" := rfl

theorem writeOutput_cons (r : SnapshotRecord) (rows : List SnapshotRecord) :
    (writeOutput (r :: rows)).data =
      (recordLine r).data ++ (writeOutput rows).data := by
  simp [writeOutput]

theorem splitLines_cons_of_ne (c : Char) (rest : List Char) (h : c ≠ '\n') :
    splitLines (c :: rest) =
      match splitLines rest with
      | [] => [[c]]
      | l :: ls => (c :: l) :: ls := by
  simp [splitLines, h]

theorem splitAtNl : ∀ (content rest : List Char), '\n' ∉ content →
    splitLines (content ++ '\n' :: rest) = content :: splitLines rest
  | [], rest, _ => by simp [splitLines]
  | c :: cs, rest, h => by
    have hc : c ≠ '\n' := fun heq => h (heq ▸ List.mem_cons_self c cs)
    have hcs : '\n' ∉ cs := fun hm => h (List.mem_cons_of_mem c hm)
    rw [List.cons_append, splitLines_cons_of_ne c _ hc, splitAtNl cs rest hcs]

/-- With newline-free names and created fields, the file splits into exactly
one chunk per record (in order) plus the empty chunk after the final
newline. -/
theorem splitLines_writeOutput :
    ∀ rows : List SnapshotRecord,
      (∀ r ∈ rows, '\n' ∉ r.name.data ∧ '\n' ∉ r.created.data) →
      splitLines (writeOutput rows).data =
        rows.map (fun r => r.name.data ++ '\t' :: r.created.data) ++ [[]]
  | [], _ => rfl
  | r :: rows, h => by
    have hr := h r (List.mem_cons_self r rows)
    have hline : '\n' ∉ r.name.data ++ '\t' :: r.created.data := by
      intro hm
      rcases List.mem_append.mp hm with hm | hm
      · exact hr.1 hm
      · rcases List.mem_cons.mp hm with hm | hm
        · simp at hm
        · exact hr.2 hm
    rw [writeOutput_cons, recordLine_data, List.append_assoc, List.cons_append,
      List.nil_append, splitAtNl _ _ hline,
      splitLines_writeOutput rows (fun x hx => h x (List.mem_cons_of_mem r hx))]
    simp

theorem splitAtLastTab_cons_of_mem (c : Char) (rest : List Char)
    (h : '\t' ∈ rest) :
    splitAtLastTab (c :: rest) =
      ((splitAtLastTab rest).1.cons c, (splitAtLastTab rest).2) := by
  simp [splitAtLastTab, h]

theorem splitAtLastTab_spec : ∀ (name created : List Char), '\t' ∉ created →
    splitAtLastTab (name ++ '\t' :: created) = (name, created)
  | [], created, h => by
    simp [splitAtLastTab, h]
  | c :: cs, created, h => by
    have hmem : '\t' ∈ cs ++ '\t' :: created :=
      List.mem_append.mpr (Or.inr (List.mem_cons_self _ _))
    rw [List.cons_append, splitAtLastTab_cons_of_mem c _ hmem,
      splitAtLastTab_spec cs created h]

/-! ### Lemmas: enumerators as item-wise filters -/

theorem getEbsSnapshots_eq_filterMap (cutoff : PyDateTime)
    (pages : List (List EbsItem)) :
    getEbsSnapshots cutoff pages = pages.flatten.filterMap (ebsItemRecord cutoff) := by
  rw [getEbsSnapshots, List.filterMap_flatten]

theorem getRdsInstanceSnapshots_eq_filterMap (cutoff : PyDateTime)
    (pages : List (List RdsItem)) :
    getRdsInstanceSnapshots cutoff pages =
      pages.flatten.filterMap (rdsItemRecord cutoff) := by
  rw [getRdsInstanceSnapshots, List.filterMap_flatten]

theorem getRdsClusterSnapshots_eq_filterMap (cutoff : PyDateTime)
    (pages : List (List RdsItem)) :
    getRdsClusterSnapshots cutoff pages =
      pages.flatten.filterMap (rdsItemRecord cutoff) := by
  rw [getRdsClusterSnapshots, List.filterMap_flatten]

theorem listEbsRows_eq_filterMap (pages : List (List EbsItem)) :
    listEbsRows pages = pages.flatten.filterMap listEbsItemRecord := by
  rw [listEbsRows, List.filterMap_flatten]

/-! ### Lemmas: the aggregation loop -/

theorem regionStep_eq (f : Fetchers) (iE iR : Bool) (region : String)
    (acc : List SnapshotRecord × List String) :
    regionStep f iE iR region acc =
      (acc.1 ++ regionRecs f iE iR region, acc.2 ++ regionWarns f iE iR region) := by
  unfold regionStep regionRecs regionWarns
  cases iE <;> cases iR <;> simp [List.append_assoc]

theorem aggregateRows_eq (f : Fetchers) (iE iR : Bool) (regions : List String) :
    aggregateRows f iE iR regions =
      ((regions.map (regionRecs f iE iR)).flatten,
        (regions.map (regionWarns f iE iR)).flatten) := by
  suffices h : ∀ acc : List SnapshotRecord × List String,
      regions.foldl (fun acc region => regionStep f iE iR region acc) acc =
        (acc.1 ++ (regions.map (regionRecs f iE iR)).flatten,
          acc.2 ++ (regions.map (regionWarns f iE iR)).flatten) by
    simpa [aggregateRows] using h ([], [])
  induction regions with
  | nil => intro acc; simp
  | cons r rs ih =>
    intro acc
    rw [List.foldl_cons, regionStep_eq, ih]
    simp [List.append_assoc]

/-! ## Claim theorems -/

/-- **C3** — The reporter sorts the aggregated records ascending by the
composite key (`created` string, then `name` string, plain lexical
comparison) and serializes each record as `name` + TAB + `created` + newline
with no header row and no trailing summary line (the file is exactly the
concatenation of the per-record lines); consequently any two runs over the
same input multiset (arbitrarily permuted) produce byte-identical file
contents. -/
theorem reporter_sorted_deterministic (l1 l2 : List SnapshotRecord)
    (hperm : l1.Perm l2) :
    (sortRows l1).Sorted (fun a b => recLe a b = true) ∧
    (sortRows l1).Perm l1 ∧
    writeOutput (sortRows l1) =
      String.join ((sortRows l1).map (fun r => r.name ++ "\t" ++ r.created ++ "\n")) ∧
    writeOutput (sortRows l1) = writeOutput (sortRows l2) :=
  ⟨sortRows_sorted l1, sortRows_perm l1, rfl,
    congrArg writeOutput (sortRows_eq_of_perm hperm)⟩

/-- Witness for C3 at a concrete permuted pair of record lists. -/
theorem reporter_sorted_deterministic_witness :
    (([⟨"b", "2020-01-01T00:00:00Z"⟩, ⟨"a", "2020-01-01T00:00:00Z"⟩] :
        List SnapshotRecord).Perm
      [⟨"a", "2020-01-01T00:00:00Z"⟩, ⟨"b", "2020-01-01T00:00:00Z"⟩]) ∧
    writeOutput (sortRows [⟨"b", "2020-01-01T00:00:00Z"⟩, ⟨"a", "2020-01-01T00:00:00Z"⟩]) =
      writeOutput (sortRows [⟨"a", "2020-01-01T00:00:00Z"⟩, ⟨"b", "2020-01-01T00:00:00Z"⟩]) :=
  ⟨by decide,
    (reporter_sorted_deterministic
      [⟨"b", "2020-01-01T00:00:00Z"⟩, ⟨"a", "2020-01-01T00:00:00Z"⟩]
      [⟨"a", "2020-01-01T00:00:00Z"⟩, ⟨"b", "2020-01-01T00:00:00Z"⟩]
      (by decide)).2.2.2⟩

/-- **C10** — The serializer writes the resolved name verbatim (no escaping,
quoting or validation): when no name or created field contains a TAB or
newline, the file consists of exactly one physical line per record (plus the
empty chunk after the final newline) and splitting each line at its last TAB
recovers `(name, created)` exactly; and there is a record whose name contains
a newline that occupies more than one physical line. -/
theorem serializer_verbatim_lines (rows : List SnapshotRecord)
    (h : ∀ r ∈ rows, '\t' ∉ r.name.data ∧ '\n' ∉ r.name.data ∧
      '\t' ∉ r.created.data ∧ '\n' ∉ r.created.data) :
    writeOutput rows =
      String.join (rows.map (fun r => r.name ++ "\t" ++ r.created ++ "\n")) ∧
    splitLines (writeOutput rows).data =
      rows.map (fun r => r.name.data ++ '\t' :: r.created.data) ++ [[]] ∧
    (∀ r ∈ rows,
      splitAtLastTab (r.name.data ++ '\t' :: r.created.data) =
        (r.name.data, r.created.data)) ∧
    (∃ rec : SnapshotRecord, '\n' ∈ rec.name.data ∧
      2 < (splitLines (writeOutput [rec]).data).length) := by
  refine ⟨rfl, ?_, ?_, ⟨(⟨"a\nb", "c"⟩ : SnapshotRecord), by decide, by decide⟩⟩
  · exact splitLines_writeOutput rows
      (fun r hr => ⟨((h r hr).2).1, ((h r hr).2).2.2⟩)
  · intro r hr
    exact splitAtLastTab_spec _ _ ((h r hr).2).2.1

/-- Witness for C10 at a concrete clean record list. -/
theorem serializer_verbatim_lines_witness :
    (∀ r ∈ ([⟨"backup-a", "2020-01-01T00:00:00Z"⟩] : List SnapshotRecord),
      '\t' ∉ r.name.data ∧ '\n' ∉ r.name.data ∧
        '\t' ∉ r.created.data ∧ '\n' ∉ r.created.data) ∧
    splitLines (writeOutput [⟨"backup-a", "2020-01-01T00:00:00Z"⟩]).data =
      ([⟨"backup-a", "2020-01-01T00:00:00Z"⟩] : List SnapshotRecord).map
        (fun r => r.name.data ++ '\t' :: r.created.data) ++ [[]] :=
  ⟨by decide,
    (serializer_verbatim_lines [⟨"backup-a", "2020-01-01T00:00:00Z"⟩]
      (by decide)).2.1⟩

/-- **C8** — Every emitted record's `created` field is the snapshot's creation
instant converted to UTC (`pyStrftimeZ` reads the UTC coordinates of the
instant, embedding `astimezone(timezone.utc).strftime(...)`), serialized
exactly as `YYYY-MM-DDTHH:MM:SSZ`: the shape check `timestampShape` holds, and
the serialization is second-precision — it is invariant under the microsecond
field, so no fractional seconds appear, and the only timezone marker is the
literal `Z` of the shape. -/
theorem created_field_utc_format (cutoff : PyDateTime) (snapE : EbsItem)
    (snapR : RdsItem) (r1 r2 : SnapshotRecord) (t u : PyDateTime)
    (he : snapE.startTime = some t) (hu : snapR.snapshotCreateTime = some u)
    (h1 : ebsItemRecord cutoff snapE = some r1)
    (h2 : rdsItemRecord cutoff snapR = some r2) :
    r1.created = pyStrftimeZ t ∧ r2.created = pyStrftimeZ u ∧
    timestampShape r1.created = true ∧ timestampShape r2.created = true ∧
    (∀ v : PyDateTime,
      pyStrftimeZ v = pyStrftimeZ ⟨v.year, v.month, v.day, v.hour, v.minute, v.second, 0⟩) := by
  simp only [ebsItemRecord, he] at h1
  simp only [rdsItemRecord, hu] at h2
  have hc1 : r1.created = pyStrftimeZ t := by
    by_cases hle : dtLe t cutoff = true
    · rw [if_pos hle] at h1
      cases h1
      rfl
    · rw [if_neg hle] at h1
      cases h1
  have hc2 : r2.created = pyStrftimeZ u := by
    by_cases hle : dtLe u cutoff = true
    · rw [if_pos hle] at h2
      cases h2
      rfl
    · rw [if_neg hle] at h2
      cases h2
  refine ⟨hc1, hc2, ?_, ?_, fun v => rfl⟩
  · rw [hc1]; exact timestampShape_pyStrftimeZ t
  · rw [hc2]; exact timestampShape_pyStrftimeZ u

/-- Witness for C8 at concrete items below a concrete cutoff. -/
theorem created_field_utc_format_witness :
    ebsItemRecord ⟨2020, 1, 1, 0, 0, 0, 0⟩
        ⟨some ⟨2019, 6, 2, 3, 4, 5, 999⟩, none, some "d", some "snap-1"⟩ =
      some ⟨"d", "2019-06-02T03:04:05Z"⟩ ∧
    rdsItemRecord ⟨2020, 1, 1, 0, 0, 0, 0⟩ ⟨some ⟨2018, 12, 31, 23, 59, 59, 0⟩, some "db-1"⟩ =
      some ⟨"db-1", "2018-12-31T23:59:59Z"⟩ ∧
    timestampShape "2019-06-02T03:04:05Z" = true := by
  have h := created_field_utc_format ⟨2020, 1, 1, 0, 0, 0, 0⟩
    ⟨some ⟨2019, 6, 2, 3, 4, 5, 999⟩, none, some "d", some "snap-1"⟩
    ⟨some ⟨2018, 12, 31, 23, 59, 59, 0⟩, some "db-1"⟩
    ⟨"d", "2019-06-02T03:04:05Z"⟩ ⟨"db-1", "2018-12-31T23:59:59Z"⟩
    ⟨2019, 6, 2, 3, 4, 5, 999⟩ ⟨2018, 12, 31, 23, 59, 59, 0⟩
    rfl rfl (by decide) (by decide)
  exact ⟨by decide, by decide, h.2.2.1⟩

/-- **C9** — The timestamp serialization is monotone: for valid timezone-aware
instants with four-digit years, chronological order (`dtLe`, the order Python
uses to compare the aware datetimes) implies lexicographic order (`strLe`, the
order the reporter's sort key uses) of the serialized strings, and on
whole-second instants (microsecond `0`) the two orders coincide exactly —
hence the reporter's lexical sort on `created` is oldest-first chronological
order to second precision. -/
theorem created_serialization_monotone (t1 t2 : PyDateTime)
    (h1 : t1.Valid) (h2 : t2.Valid)
    (hy1 : 1000 ≤ t1.year) (hy2 : 1000 ≤ t2.year) :
    (dtLe t1 t2 = true → strLe (pyStrftimeZ t1) (pyStrftimeZ t2) = true) ∧
    (t1.microsecond = 0 → t2.microsecond = 0 →
      (dtLe t1 t2 = true ↔ strLe (pyStrftimeZ t1) (pyStrftimeZ t2) = true)) := by
  have hb : strLe (pyStrftimeZ t1) (pyStrftimeZ t2) =
      lexLe charLt (fmtChars t1) (fmtChars t2) := rfl
  have hiff := fmt_le_iff t1 t2 h1 h2
  have hdt := dtLe_eq t1 t2
  constructor
  · intro h
    rw [hb, hiff]
    rw [hdt] at h
    by_cases hp : dtProj t1 = dtProj t2
    · rw [hp]
      exact lexLe_refl _ _
    · rw [if_neg hp] at h
      exact h
  · intro hm1 hm2
    rw [hb, hiff, hdt]
    by_cases hp : dtProj t1 = dtProj t2
    · rw [if_pos hp, hm1, hm2, hp]
      simp [lexLe_refl]
    · rw [if_neg hp]

/-- Witness for C9 at two concrete valid instants. -/
theorem created_serialization_monotone_witness :
    (PyDateTime.Valid ⟨2020, 5, 1, 12, 0, 0, 0⟩ ∧
      PyDateTime.Valid ⟨2021, 1, 1, 0, 0, 0, 0⟩) ∧
    (dtLe ⟨2020, 5, 1, 12, 0, 0, 0⟩ ⟨2021, 1, 1, 0, 0, 0, 0⟩ = true ↔
      strLe (pyStrftimeZ ⟨2020, 5, 1, 12, 0, 0, 0⟩)
        (pyStrftimeZ ⟨2021, 1, 1, 0, 0, 0, 0⟩) = true) :=
  ⟨⟨by decide, by decide⟩,
    (created_serialization_monotone ⟨2020, 5, 1, 12, 0, 0, 0⟩ ⟨2021, 1, 1, 0, 0, 0, 0⟩
      (by decide) (by decide) (by decide) (by decide)).2 rfl rfl⟩

/-- `None` or the empty string, the values Python's `or` chain skips. -/
def blank (x : Option String) : Prop := x = none ∨ x = some ""

instance (x : Option String) : Decidable (blank x) := by
  unfold blank; infer_instance

theorem truthy_of_some_ne {v : String} (h : v ≠ "") : truthy (some v) = true := by
  simp [truthy, h]

theorem truthy_of_blank {x : Option String} (h : blank x) : truthy x = false := by
  rcases h with h | h <;> simp [h, truthy]

/-- **C4** — For block-storage snapshots the record name follows the fixed
precedence of `name_tag or description or snapshot_id or "<unnamed>"`: a
present (non-empty — Python truthiness, which the claim's own "never empty"
conjunct forces, since `or` skips empty strings) `Name`-tag value wins over
everything, else a present non-empty description, else a present non-empty
snapshot identifier, else the literal `<unnamed>`; the resolved name is never
the empty string, and every emitted EBS record carries exactly this resolved
name. -/
theorem ebs_name_precedence (nameTag description snapshotId : Option String)
    (cutoff : PyDateTime) (snap : EbsItem) (r : SnapshotRecord)
    (hr : ebsItemRecord cutoff snap = some r) :
    (∀ v, v ≠ "" → nameTag = some v →
      ebsDisplayName nameTag description snapshotId = v) ∧
    (blank nameTag → ∀ v, v ≠ "" → description = some v →
      ebsDisplayName nameTag description snapshotId = v) ∧
    (blank nameTag → blank description → ∀ v, v ≠ "" → snapshotId = some v →
      ebsDisplayName nameTag description snapshotId = v) ∧
    (blank nameTag → blank description → blank snapshotId →
      ebsDisplayName nameTag description snapshotId = "<unnamed>") ∧
    ebsDisplayName nameTag description snapshotId ≠ "" ∧
    r.name = ebsDisplayName (findNameTag (snap.tags.getD []))
      snap.description snap.snapshotId ∧
    r.name ≠ "" := by
  have hchain : ∀ a b c : Option String, ebsDisplayName a b c ≠ "" := by
    intro a b c hcontra
    unfold ebsDisplayName at hcontra
    by_cases ha : truthy a = true
    · rw [if_pos ha] at hcontra
      cases a with
      | none => simp [truthy] at ha
      | some v =>
        rw [Option.getD_some] at hcontra
        subst hcontra
        simp [truthy] at ha
    · rw [if_neg ha] at hcontra
      by_cases hb : truthy b = true
      · rw [if_pos hb] at hcontra
        cases b with
        | none => simp [truthy] at hb
        | some v =>
          rw [Option.getD_some] at hcontra
          subst hcontra
          simp [truthy] at hb
      · rw [if_neg hb] at hcontra
        by_cases hc : truthy c = true
        · rw [if_pos hc] at hcontra
          cases c with
          | none => simp [truthy] at hc
          | some v =>
            rw [Option.getD_some] at hcontra
            subst hcontra
            simp [truthy] at hc
        · rw [if_neg hc] at hcontra
          simp at hcontra
  have hname : ∃ st : PyDateTime, snap.startTime = some st ∧
      r.name = ebsDisplayName (findNameTag (snap.tags.getD []))
        snap.description snap.snapshotId := by
    cases hst : snap.startTime with
    | none => rw [ebsItemRecord, hst] at hr; cases hr
    | some st =>
      refine ⟨st, rfl, ?_⟩
      simp only [ebsItemRecord, hst] at hr
      by_cases hle : dtLe st cutoff = true
      · rw [if_pos hle] at hr
        cases hr
        rfl
      · rw [if_neg hle] at hr
        cases hr
  obtain ⟨st, hst, hrn⟩ := hname
  refine ⟨?_, ?_, ?_, ?_, hchain _ _ _, hrn, hrn ▸ hchain _ _ _⟩
  · intro v hv hnt
    rw [hnt, ebsDisplayName, if_pos (truthy_of_some_ne hv), Option.getD_some]
  · intro hb v hv hdesc
    rw [hdesc, ebsDisplayName, if_neg (by simp [truthy_of_blank hb]),
      if_pos (truthy_of_some_ne hv), Option.getD_some]
  · intro hb1 hb2 v hv hsid
    rw [hsid, ebsDisplayName, if_neg (by simp [truthy_of_blank hb1]),
      if_neg (by simp [truthy_of_blank hb2]),
      if_pos (truthy_of_some_ne hv), Option.getD_some]
  · intro hb1 hb2 hb3
    rw [ebsDisplayName, if_neg (by simp [truthy_of_blank hb1]),
      if_neg (by simp [truthy_of_blank hb2]),
      if_neg (by simp [truthy_of_blank hb3])]

/-- Witness for C4: tag beats description, and the emitted record name. -/
theorem ebs_name_precedence_witness :
    ebsItemRecord ⟨2020, 1, 1, 0, 0, 0, 0⟩
        ⟨some ⟨2019, 1, 1, 0, 0, 0, 0⟩, some [⟨some "Name", some "tagged"⟩],
          some "desc", some "snap-1"⟩ =
      some ⟨"tagged", "2019-01-01T00:00:00Z"⟩ ∧
    ebsDisplayName (some "tagged") (some "desc") (some "snap-1") = "tagged" ∧
    ebsDisplayName none (some "desc") (some "snap-1") = "desc" ∧
    ebsDisplayName none none (some "snap-1") = "snap-1" ∧
    ebsDisplayName none none none = "<unnamed>" := by
  have h := ebs_name_precedence (some "tagged") (some "desc") (some "snap-1")
    ⟨2020, 1, 1, 0, 0, 0, 0⟩
    ⟨some ⟨2019, 1, 1, 0, 0, 0, 0⟩, some [⟨some "Name", some "tagged"⟩],
      some "desc", some "snap-1"⟩
    ⟨"tagged", "2019-01-01T00:00:00Z"⟩ (by decide)
  refine ⟨by decide, h.1 "tagged" (by decide) rfl, ?_, ?_, ?_⟩
  · exact (ebs_name_precedence none (some "desc") (some "snap-1")
      ⟨2020, 1, 1, 0, 0, 0, 0⟩
      ⟨some ⟨2019, 1, 1, 0, 0, 0, 0⟩, some [⟨some "Name", some "tagged"⟩],
        some "desc", some "snap-1"⟩
      ⟨"tagged", "2019-01-01T00:00:00Z"⟩ (by decide)).2.1
      (Or.inl rfl) "desc" (by decide) rfl
  · decide
  · decide

/-- **C7** — For RDS instance and cluster snapshots the record name is the
identifier-only fallback `identifier or "<unnamed>"`: a present non-empty
(truthy) identifier, else the placeholder; no tag lookup and no description
enter (an `RdsItem` carries no such fields), and both RDS enumerators build
their record names exactly this way. -/
theorem rds_name_identifier_only (identifier : Option String)
    (cutoff : PyDateTime) (snap : RdsItem) (r : SnapshotRecord)
    (hr : rdsItemRecord cutoff snap = some r) :
    (∀ v, v ≠ "" → identifier = some v → rdsName identifier = v) ∧
    (blank identifier → rdsName identifier = "<unnamed>") ∧
    rdsName identifier ≠ "" ∧
    r.name = rdsName snap.identifier := by
  have hname : r.name = rdsName snap.identifier := by
    cases hst : snap.snapshotCreateTime with
    | none => rw [rdsItemRecord, hst] at hr; cases hr
    | some created =>
      simp only [rdsItemRecord, hst] at hr
      by_cases hle : dtLe created cutoff = true
      · rw [if_pos hle] at hr
        cases hr
        rfl
      · rw [if_neg hle] at hr
        cases hr
  refine ⟨?_, ?_, ?_, hname⟩
  · intro v hv hid
    rw [hid, rdsName, if_pos (truthy_of_some_ne hv), Option.getD_some]
  · intro hb
    rw [rdsName, if_neg (by simp [truthy_of_blank hb])]
  · intro hcontra
    unfold rdsName at hcontra
    by_cases hi : truthy identifier = true
    · rw [if_pos hi] at hcontra
      cases identifier with
      | none => simp [truthy] at hi
      | some v =>
        rw [Option.getD_some] at hcontra
        subst hcontra
        simp [truthy] at hi
    · rw [if_neg hi] at hcontra
      simp at hcontra

/-- Witness for C7 at a concrete RDS item. -/
theorem rds_name_identifier_only_witness :
    rdsItemRecord ⟨2020, 1, 1, 0, 0, 0, 0⟩ ⟨some ⟨2019, 1, 1, 0, 0, 0, 0⟩, some "db-1"⟩ =
      some ⟨"db-1", "2019-01-01T00:00:00Z"⟩ ∧
    rdsName (some "db-1") = "db-1" ∧ rdsName none = "<unnamed>" := by
  have h := rds_name_identifier_only (some "db-1") ⟨2020, 1, 1, 0, 0, 0, 0⟩
    ⟨some ⟨2019, 1, 1, 0, 0, 0, 0⟩, some "db-1"⟩
    ⟨"db-1", "2019-01-01T00:00:00Z"⟩ (by decide)
  exact ⟨by decide, h.1 "db-1" (by decide) rfl, by decide⟩

/-- **C5** — An item whose creation-time field is absent or not a datetime
(modelled as `none`) is silently skipped: it contributes no record (the model
enumerators emit nothing but records, so in particular no warning), all other
items of the page are processed unchanged, and the output equals the output
for the well-formed variant of the same input minus exactly the one record
that variant contributes (shown for the aggregator's EBS and RDS enumerators
and the listing script's loop). -/
theorem malformed_item_silent_skip (cutoff : PyDateTime) (pre post : List EbsItem)
    (tg : Option (List Tag)) (dsc sid : Option String)
    (preR postR : List RdsItem) (ident : Option String) :
    getEbsSnapshots cutoff [pre ++ ⟨none, tg, dsc, sid⟩ :: post] =
      getEbsSnapshots cutoff [pre] ++ getEbsSnapshots cutoff [post] ∧
    (∀ t, dtLe t cutoff = true →
      getEbsSnapshots cutoff [pre ++ ⟨some t, tg, dsc, sid⟩ :: post] =
        getEbsSnapshots cutoff [pre] ++
          ⟨ebsDisplayName (findNameTag (tg.getD [])) dsc sid, pyStrftimeZ t⟩ ::
            getEbsSnapshots cutoff [post]) ∧
    getRdsInstanceSnapshots cutoff [preR ++ ⟨none, ident⟩ :: postR] =
      getRdsInstanceSnapshots cutoff [preR] ++ getRdsInstanceSnapshots cutoff [postR] ∧
    (∀ u, dtLe u cutoff = true →
      getRdsInstanceSnapshots cutoff [preR ++ ⟨some u, ident⟩ :: postR] =
        getRdsInstanceSnapshots cutoff [preR] ++
          ⟨rdsName ident, pyStrftimeZ u⟩ :: getRdsInstanceSnapshots cutoff [postR]) ∧
    listEbsRows [pre ++ ⟨none, tg, dsc, sid⟩ :: post] =
      listEbsRows [pre] ++ listEbsRows [post] := by
  refine ⟨?_, ?_, ?_, ?_, ?_⟩
  · simp [getEbsSnapshots_eq_filterMap, List.filterMap_append, List.filterMap_cons,
      ebsItemRecord]
  · intro t ht
    simp [getEbsSnapshots_eq_filterMap, List.filterMap_append, List.filterMap_cons,
      ebsItemRecord, ht]
  · simp [getRdsInstanceSnapshots_eq_filterMap, List.filterMap_append,
      List.filterMap_cons, rdsItemRecord]
  · intro u hu
    simp [getRdsInstanceSnapshots_eq_filterMap, List.filterMap_append,
      List.filterMap_cons, rdsItemRecord, hu]
  · simp [listEbsRows_eq_filterMap, List.filterMap_append, List.filterMap_cons,
      listEbsItemRecord]

/-- Witness for C5: one malformed item among two well-formed ones vanishes
from the output; making it well-formed restores exactly one record. -/
theorem malformed_item_silent_skip_witness :
    dtLe ⟨2019, 1, 1, 0, 0, 0, 0⟩ ⟨2020, 1, 1, 0, 0, 0, 0⟩ = true ∧
    getEbsSnapshots ⟨2020, 1, 1, 0, 0, 0, 0⟩
        [[⟨some ⟨2018, 1, 1, 0, 0, 0, 0⟩, none, none, some "a"⟩,
          ⟨none, none, none, some "m"⟩,
          ⟨some ⟨2017, 1, 1, 0, 0, 0, 0⟩, none, none, some "b"⟩]] =
      getEbsSnapshots ⟨2020, 1, 1, 0, 0, 0, 0⟩
          [[⟨some ⟨2018, 1, 1, 0, 0, 0, 0⟩, none, none, some "a"⟩]] ++
        getEbsSnapshots ⟨2020, 1, 1, 0, 0, 0, 0⟩
          [[⟨some ⟨2017, 1, 1, 0, 0, 0, 0⟩, none, none, some "b"⟩]] ∧
    getEbsSnapshots ⟨2020, 1, 1, 0, 0, 0, 0⟩
        [[⟨some ⟨2018, 1, 1, 0, 0, 0, 0⟩, none, none, some "a"⟩,
          ⟨some ⟨2019, 1, 1, 0, 0, 0, 0⟩, none, none, some "m"⟩,
          ⟨some ⟨2017, 1, 1, 0, 0, 0, 0⟩, none, none, some "b"⟩]] =
      getEbsSnapshots ⟨2020, 1, 1, 0, 0, 0, 0⟩
          [[⟨some ⟨2018, 1, 1, 0, 0, 0, 0⟩, none, none, some "a"⟩]] ++
        ⟨ebsDisplayName (findNameTag ((none : Option (List Tag)).getD []))
            none (some "m"), pyStrftimeZ ⟨2019, 1, 1, 0, 0, 0, 0⟩⟩ ::
          getEbsSnapshots ⟨2020, 1, 1, 0, 0, 0, 0⟩
            [[⟨some ⟨2017, 1, 1, 0, 0, 0, 0⟩, none, none, some "b"⟩]] := by
  have h := malformed_item_silent_skip ⟨2020, 1, 1, 0, 0, 0, 0⟩
    [⟨some ⟨2018, 1, 1, 0, 0, 0, 0⟩, none, none, some "a"⟩]
    [⟨some ⟨2017, 1, 1, 0, 0, 0, 0⟩, none, none, some "b"⟩]
    none none (some "m") [] [] none
  exact ⟨by decide, h.1, h.2.1 ⟨2019, 1, 1, 0, 0, 0, 0⟩ (by decide)⟩

/-- **C1, counterexample** — The claim asserts that *each of the two scripts*
emits a record if and only if the creation instant is at or before the
cutoff; but `list_ebs_snapshots.py` applies no age filter at all: here an
item strictly newer (2030) than the computed cutoff (2020) is still emitted
by the listing script's enumeration. -/
theorem list_script_ignores_cutoff :
    listEbsRows [[⟨some ⟨2030, 1, 1, 0, 0, 0, 0⟩, none, none, some "snap-1"⟩]] =
      [⟨"snap-1", "2030-01-01T00:00:00Z"⟩] ∧
    dtLe ⟨2030, 1, 1, 0, 0, 0, 0⟩ ⟨2020, 1, 1, 0, 0, 0, 0⟩ = false := by decide

/-- **C1, amended** — The three enumerators of the aggregator script
(`extract_snapshots.py`) emit a record for a well-formed item if and only if
its creation instant is at or before (`<=`, inclusive) the cutoff — in
particular an instant equal to the cutoff is included, since the
chronological order is reflexive — while the listing script
(`list_ebs_snapshots.py`) applies no age filter and emits a record for every
well-formed item; items without a datetime creation field are never
emitted by either script. -/
theorem cutoff_inclusive_enumerators (cutoff : PyDateTime)
    (snapE : EbsItem) (snapR : RdsItem) (t u : PyDateTime)
    (he : snapE.startTime = some t) (hu : snapR.snapshotCreateTime = some u) :
    ((ebsItemRecord cutoff snapE).isSome = true ↔ dtLe t cutoff = true) ∧
    ((rdsItemRecord cutoff snapR).isSome = true ↔ dtLe u cutoff = true) ∧
    (∀ c : PyDateTime, dtLe c c = true) ∧
    (listEbsItemRecord snapE).isSome = true ∧
    (∀ s : EbsItem, s.startTime = none →
      ebsItemRecord cutoff s = none ∧ listEbsItemRecord s = none) ∧
    (∀ pages, getEbsSnapshots cutoff pages =
      pages.flatten.filterMap (ebsItemRecord cutoff)) ∧
    (∀ pages, listEbsRows pages = pages.flatten.filterMap listEbsItemRecord) := by
  refine ⟨?_, ?_, fun c => lexLe_refl natLt (dtFields c), ?_, ?_, ?_, ?_⟩
  · by_cases h : dtLe t cutoff = true <;> simp [ebsItemRecord, he, h]
  · by_cases h : dtLe u cutoff = true <;> simp [rdsItemRecord, hu, h]
  · simp [listEbsItemRecord, he]
  · intro s hs
    exact ⟨by simp [ebsItemRecord, hs], by simp [listEbsItemRecord, hs]⟩
  · exact getEbsSnapshots_eq_filterMap cutoff
  · exact listEbsRows_eq_filterMap

/-- Witness for C1 (amended) at the exact boundary: an item created exactly
at the cutoff instant is included by the aggregator's enumerators. -/
theorem cutoff_inclusive_enumerators_witness :
    (ebsItemRecord ⟨2020, 1, 1, 0, 0, 0, 0⟩
        ⟨some ⟨2020, 1, 1, 0, 0, 0, 0⟩, none, none, some "s"⟩).isSome = true ∧
    (rdsItemRecord ⟨2020, 1, 1, 0, 0, 0, 0⟩
        ⟨some ⟨2020, 1, 1, 0, 0, 0, 0⟩, some "db"⟩).isSome = true := by
  have h := cutoff_inclusive_enumerators ⟨2020, 1, 1, 0, 0, 0, 0⟩
    ⟨some ⟨2020, 1, 1, 0, 0, 0, 0⟩, none, none, some "s"⟩
    ⟨some ⟨2020, 1, 1, 0, 0, 0, 0⟩, some "db"⟩
    ⟨2020, 1, 1, 0, 0, 0, 0⟩ ⟨2020, 1, 1, 0, 0, 0, 0⟩ rfl rfl
  exact ⟨h.1.mpr (h.2.2.1 ⟨2020, 1, 1, 0, 0, 0, 0⟩),
    h.2.1.mpr (h.2.2.1 ⟨2020, 1, 1, 0, 0, 0, 0⟩)⟩

/-- **C6, counterexample** — The claim lists "exactly the one explicit region
when one is given" before the all-regions case, but the code tests
`--all-regions` first: with both an explicit region (`us-east-1`) and
all-regions requested, the resolver returns the opted-in listing
(`eu-west-1`), not the explicit region. -/
theorem all_regions_overrides_explicit :
    resolveRegions true (some "us-east-1") none
        (.ok [⟨some "eu-west-1", some "opted-in"⟩]) = .ok ["eu-west-1"] ∧
    ("eu-west-1" : String) ≠ "us-east-1" :=
  ⟨rfl, by decide⟩

/-- **C6, amended** — The region resolver gives the all-regions request
priority: when all-regions is requested it returns the deduplicated,
ascending-sorted set of (non-empty) region names whose opt-in status is
unset, `opt-in-not-required` or `opted-in`, and a region-listing failure
aborts the whole run; otherwise it returns exactly the explicit region when a
non-empty one is given, else the session's configured default region, and
when neither is configured the run terminates as a fatal configuration
error. -/
theorem region_resolver_spec (argRegion defaultRegion : Option String)
    (rs : List RegionEntry) (e : String)
    (resp : Except String (List RegionEntry)) :
    resolveRegions true argRegion defaultRegion (.error e) =
      .error ("Failed to list regions: " ++ e) ∧
    resolveRegions true argRegion defaultRegion (.ok rs) =
      .ok (sortedSet (regionFilter rs)) ∧
    (sortedSet (regionFilter rs)).Sorted (fun a b => strLe a b = true) ∧
    (sortedSet (regionFilter rs)).Nodup ∧
    (∀ x, x ∈ sortedSet (regionFilter rs) ↔
      ∃ entry ∈ rs, entry.regionName = some x ∧ x ≠ "" ∧
        optInOk entry.optInStatus = true) ∧
    (∀ v, v ≠ "" → argRegion = some v →
      resolveRegions false argRegion defaultRegion resp = .ok [v]) ∧
    (blank argRegion → ∀ v, v ≠ "" → defaultRegion = some v →
      resolveRegions false argRegion defaultRegion resp = .ok [v]) ∧
    (blank argRegion → blank defaultRegion →
      resolveRegions false argRegion defaultRegion resp = .error noRegionMsg) := by
  have hperm : (sortedSet (regionFilter rs)).Perm (regionFilter rs).dedup :=
    List.perm_insertionSort _ _
  refine ⟨rfl, rfl, List.sorted_insertionSort _ _,
    hperm.nodup_iff.mpr (List.nodup_dedup _), ?_, ?_, ?_, ?_⟩
  · intro x
    rw [hperm.mem_iff, List.mem_dedup]
    unfold regionFilter
    rw [List.mem_filterMap]
    constructor
    · rintro ⟨entry, hmem, hf⟩
      cases hname : entry.regionName with
      | none => simp [hname] at hf
      | some name =>
        simp only [hname] at hf
        by_cases hcond : (!(name == "") && optInOk entry.optInStatus) = true
        · rw [if_pos hcond] at hf
          cases hf
          rcases Bool.and_eq_true .. |>.mp hcond with ⟨hne, hok⟩
          refine ⟨entry, hmem, hname, ?_, hok⟩
          simpa using hne
        · rw [if_neg hcond] at hf
          cases hf
    · rintro ⟨entry, hmem, hname, hne, hok⟩
      refine ⟨entry, hmem, ?_⟩
      rw [hname]
      simp [hne, hok]
  · intro v hv hav
    rw [resolveRegions, hav]
    simp [truthy_of_some_ne hv]
  · intro hb v hv hdv
    rw [resolveRegions, hdv]
    simp [truthy_of_blank hb, truthy_of_some_ne hv]
  · intro hb1 hb2
    simp [resolveRegions, truthy_of_blank hb1, truthy_of_blank hb2]

/-- Witness for C6 (amended) at concrete inputs: a listing with a duplicate,
an empty name, a not-opted-in region and an unset status. -/
theorem region_resolver_spec_witness :
    resolveRegions true none none
        (.ok [⟨some "us-west-2", some "opted-in"⟩,
          ⟨some "ap-east-1", some "not-opted-in"⟩,
          ⟨some "us-east-1", none⟩,
          ⟨some "", some "opted-in"⟩,
          ⟨some "us-west-2", some "opt-in-not-required"⟩]) =
      .ok (sortedSet (regionFilter
        [⟨some "us-west-2", some "opted-in"⟩,
          ⟨some "ap-east-1", some "not-opted-in"⟩,
          ⟨some "us-east-1", none⟩,
          ⟨some "", some "opted-in"⟩,
          ⟨some "us-west-2", some "opt-in-not-required"⟩])) ∧
    resolveRegions false (some "sa-east-1") none (.ok []) = .ok ["sa-east-1"] ∧
    resolveRegions false none none (.ok []) = .error noRegionMsg :=
  ⟨(region_resolver_spec none none _ "" (.ok [])).2.1,
    (region_resolver_spec (some "sa-east-1") none [] "" (.ok [])).2.2.2.2.2.1
      "sa-east-1" (by decide) rfl,
    (region_resolver_spec none none [] "" (.ok [])).2.2.2.2.2.2.2
      (Or.inl rfl) (Or.inl rfl)⟩

/-- **C2** — For every (source kind, region) pair the aggregation loop wraps
the enumerator call in its own `try/except`: a raised error is converted into
a warning that names the failed kind and the region (`regionWarns` /
`warnLine`), the remaining pairs are still processed, records yielded before
a failure and records of all other pairs all appear in the aggregated rows,
and the run still finishes successfully (`extractMain` returns `.ok` with the
sorted serialized report and the warnings, for any pattern of per-call
failures). -/
theorem aggregator_failure_isolation (allRegions : Bool)
    (argRegion defaultRegion : Option String)
    (resp : Except String (List RegionEntry)) (service : Service)
    (f : Fetchers) (regions : List String)
    (hres : resolveRegions allRegions argRegion defaultRegion resp = .ok regions) :
    aggregateRows f (includeEbs service) (includeRds service) regions =
      ((regions.map (regionRecs f (includeEbs service) (includeRds service))).flatten,
        (regions.map (regionWarns f (includeEbs service) (includeRds service))).flatten) ∧
    (∀ region ∈ regions,
      ∀ r ∈ regionRecs f (includeEbs service) (includeRds service) region,
        r ∈ (aggregateRows f (includeEbs service) (includeRds service) regions).1) ∧
    (∀ region ∈ regions,
      ∀ w ∈ regionWarns f (includeEbs service) (includeRds service) region,
        w ∈ (aggregateRows f (includeEbs service) (includeRds service) regions).2) ∧
    (∀ region err, includeEbs service = true → (f.ebs region).err = some err →
      warnLine "EBS snapshots" region err ∈
        regionWarns f (includeEbs service) (includeRds service) region) ∧
    extractMain allRegions argRegion defaultRegion resp service f =
      .ok (writeOutput (sortRows
            (aggregateRows f (includeEbs service) (includeRds service) regions).1),
          (aggregateRows f (includeEbs service) (includeRds service) regions).2) := by
  have hagg := aggregateRows_eq f (includeEbs service) (includeRds service) regions
  refine ⟨hagg, ?_, ?_, ?_, ?_⟩
  · intro region hregion r hr
    rw [hagg]
    exact List.mem_flatten.mpr ⟨_, List.mem_map_of_mem _ hregion, hr⟩
  · intro region hregion w hw
    rw [hagg]
    exact List.mem_flatten.mpr ⟨_, List.mem_map_of_mem _ hregion, hw⟩
  · intro region err hinc herr
    rw [regionWarns, hinc, herr]
    simp [warnOf]
  · rw [extractMain, hres]

/-- Witness for C2: two regions, the EBS call failing in the first after
yielding one record; every other record still reaches the output and the run
returns successfully with the one warning. -/
theorem aggregator_failure_isolation_witness :
    extractMain false (some "r1") none (.ok []) Service.both
        ⟨fun region => if region = "r1"
            then ⟨[⟨"partial", "2019-01-01T00:00:00Z"⟩], some "boom"⟩
            else ⟨[], none⟩,
          fun _ => ⟨[⟨"db", "2018-01-01T00:00:00Z"⟩], none⟩,
          fun _ => ⟨[], none⟩⟩ =
      .ok (writeOutput (sortRows
          (aggregateRows
            ⟨fun region => if region = "r1"
                then ⟨[⟨"partial", "2019-01-01T00:00:00Z"⟩], some "boom"⟩
                else ⟨[], none⟩,
              fun _ => ⟨[⟨"db", "2018-01-01T00:00:00Z"⟩], none⟩,
              fun _ => ⟨[], none⟩⟩
            (includeEbs Service.both) (includeRds Service.both) ["r1"]).1),
        (aggregateRows
          ⟨fun region => if region = "r1"
              then ⟨[⟨"partial", "2019-01-01T00:00:00Z"⟩], some "boom"⟩
              else ⟨[], none⟩,
            fun _ => ⟨[⟨"db", "2018-01-01T00:00:00Z"⟩], none⟩,
            fun _ => ⟨[], none⟩⟩
          (includeEbs Service.both) (includeRds Service.both) ["r1"]).2) :=
  (aggregator_failure_isolation false (some "r1") none (.ok []) Service.both
    ⟨fun region => if region = "r1"
        then ⟨[⟨"partial", "2019-01-01T00:00:00Z"⟩], some "boom"⟩
        else ⟨[], none⟩,
      fun _ => ⟨[⟨"db", "2018-01-01T00:00:00Z"⟩], none⟩,
      fun _ => ⟨[], none⟩⟩ ["r1"] rfl).2.2.2.2

end SnapshotsExtract
